import Mathlib

/-
Verification of the code-generation bookkeeping layer (`CompilerContext`)
of libsolidity in the webthree-umbrella repository.

The authoritative source is `src/libsolidity/CompilerContext.h`.  The member
functions implemented inline in that header (`startNewFunction`,
`setCompiledContracts`, `adjustStackOffset`, the classification queries, the
jump/tag emission facade and `getAssembledBytecode`) are translated directly.
The bodies of the remaining members live in `CompilerContext.cpp`, and the
`eth::Assembly` engine lives in `libevmcore`; neither file is under `src/`,
so those parts are modelled from the specification (marked
`Modelled from the spec:` below).

Declarations and contract definitions are identified by opaque identities;
here they are `Nat` identifiers.  The C++ code keys its maps on pointers and
only uses identity, so this is faithful.  `std::map` is modelled as an
association list with overwrite-on-assignment (`mapSet`), matching
`operator[]` assignment.  Machine integers (`unsigned`, `int`, `u256`) are
modelled as `Nat`/`Int`; none of the verified scenarios approach a wrap.
-/

namespace Solidity

/-- Error kinds of the bookkeeping layer (spec section 7). -/
inductive CompilerError where
  | NotFound
  | DuplicateDeclaration
  | DanglingReference
  | MisuseAfterFinalize
  deriving DecidableEq

/-- The EVM opcodes that the `CompilerContext` facade itself emits, plus a few
generic ones reachable through the stream-insertion operator. -/
inductive Instruction where
  | STOP
  | ADD
  | POP
  | JUMP
  | JUMPI
  deriving DecidableEq

/-- Number of stack arguments consumed and results produced by an opcode,
per the EVM's fixed arities (spec section 4.5: deposit is updated by
minus inputs plus outputs). -/
def instructionInfo : Instruction → Nat × Nat
  | Instruction.STOP => (0, 0)
  | Instruction.ADD => (2, 1)
  | Instruction.POP => (1, 0)
  | Instruction.JUMP => (1, 0)
  | Instruction.JUMPI => (2, 0)

/-- Byte value of each opcode in the assembled output. -/
def opcodeByte : Instruction → Nat
  | Instruction.STOP => 0x00
  | Instruction.ADD => 0x01
  | Instruction.POP => 0x50
  | Instruction.JUMP => 0x56
  | Instruction.JUMPI => 0x57

/-- One element of the instruction stream (spec section 3): an opcode, an
immediate literal, a tag reference, a tag placement, a reference into the
data region, a subroutine size/offset reference, or the program size. -/
inductive AsmItem where
  | Operation (op : Instruction)
  | Push (value : Nat)
  | PushTag (tagId : Nat)
  | Tag (tagId : Nat)
  | PushData (dataId : Nat)
  | PushSub (subId : Nat)
  | PushSubSize (subId : Nat)
  | PushProgramSize
  deriving DecidableEq

/-- Net stack effect of one stream item (spec section 4.5: pushes are +1 per
value, operations are minus inputs plus outputs, a tag placement is neutral). -/
def itemDeposit : AsmItem → Int
  | AsmItem.Operation op => ((instructionInfo op).2 : Int) - ((instructionInfo op).1 : Int)
  | AsmItem.Tag _ => 0
  | _ => 1

/-- Byte width of one stream item in the final layout.  A placed tag becomes a
1-byte JUMPDEST, a literal push is PUSH32 plus 32 bytes, and every resolved
reference is a PUSH2 plus a 2-byte operand. -/
def itemSize : AsmItem → Nat
  | AsmItem.Operation _ => 1
  | AsmItem.Push _ => 33
  | AsmItem.Tag _ => 1
  | _ => 3

/-- Big-endian byte encoding of `n` on exactly `width` bytes. -/
def beBytes : Nat → Nat → List Nat
  | 0, _ => []
  | width + 1, n => beBytes width (n / 256) ++ [n % 256]

/-- Lookup in an association list keyed by identities (models `std::map::find`). -/
def mapFind {α : Type} : List (Nat × α) → Nat → Option α
  | [], _ => none
  | (k, v) :: rest, key => if k = key then some v else mapFind rest key

/-- Overwriting insertion into an association list (models assignment through
`std::map::operator[]`: a present key keeps its position and gets the new
value, an absent key is appended). -/
def mapSet {α : Type} : List (Nat × α) → Nat → α → List (Nat × α)
  | [], key, val => [(key, val)]
  | (k, v) :: rest, key, val =>
      if k = key then (key, val) :: rest else (k, v) :: mapSet rest key val

/-- Modelled from the spec: `eth::Assembly` (libevmcore) is not under `src/`.
This is the Instruction Stream Emitter of spec section 4.5: an ordered item
stream, the raw data blocks and embedded subroutine bytecodes of the data
region, the running net stack depth (`deposit`, an `int` in the C++ code),
and the mint counter for forward-reference tags. -/
structure Assembly where
  items : List AsmItem := []
  data : List (List Nat) := []
  subs : List (List Nat) := []
  deposit : Int := 0
  usedTags : Nat := 0
  deriving DecidableEq

/-- Appends one item to the stream and applies its net stack effect to the
deposit (spec section 4.5, `emit`). -/
def Assembly.append (a : Assembly) (i : AsmItem) : Assembly :=
  { a with items := a.items ++ [i], deposit := a.deposit + itemDeposit i }

/-- Appends an opcode. -/
def Assembly.appendInstr (a : Assembly) (op : Instruction) : Assembly :=
  a.append (AsmItem.Operation op)

/-- Appends an immediate literal push. -/
def Assembly.appendPush (a : Assembly) (v : Nat) : Assembly :=
  a.append (AsmItem.Push v)

/-- Appends a reference to (the eventual address of) a tag. -/
def Assembly.appendPushTag (a : Assembly) (t : Nat) : Assembly :=
  a.append (AsmItem.PushTag t)

/-- Mints a fresh forward-reference tag without emitting anything
(spec section 4.5, `mintTag`). -/
def Assembly.newTag (a : Assembly) : Nat × Assembly :=
  (a.usedTags, { a with usedTags := a.usedTags + 1 })

/-- Overwrites the deposit (used by `CompilerContext::startNewFunction`). -/
def Assembly.setDeposit (a : Assembly) (d : Int) : Assembly :=
  { a with deposit := d }

/-- Manual deposit correction (spec section 4.5, `adjustDeposit`). -/
def Assembly.adjustDeposit (a : Assembly) (d : Int) : Assembly :=
  { a with deposit := a.deposit + d }

/-- Conditional branch to a freshly minted tag: mint, push the tag reference,
emit JUMPI; returns the tag (spec section 4.5, `jumpIf`). -/
def Assembly.appendJumpI (a : Assembly) : Nat × Assembly :=
  (a.usedTags, (((a.newTag).2).appendPushTag a.usedTags).appendInstr Instruction.JUMPI)

/-- Conditional branch to an existing tag (spec section 4.5, `jumpIfTo`). -/
def Assembly.appendJumpITo (a : Assembly) (t : Nat) : Assembly :=
  (a.appendPushTag t).appendInstr Instruction.JUMPI

/-- Unconditional branch to a freshly minted tag
(spec section 4.5, `jumpToNewTag`). -/
def Assembly.appendJumpNew (a : Assembly) : Nat × Assembly :=
  (a.usedTags, (((a.newTag).2).appendPushTag a.usedTags).appendInstr Instruction.JUMP)

/-- Unconditional branch to an existing tag (spec section 4.5, `jumpTo`). -/
def Assembly.appendJumpToTag (a : Assembly) (t : Nat) : Assembly :=
  (a.appendPushTag t).appendInstr Instruction.JUMP

/-- Mints a tag and pushes a reference to it (spec section 4.5,
`mintAndPushTag`). -/
def Assembly.newPushTag (a : Assembly) : Nat × Assembly :=
  (a.usedTags, ((a.newTag).2).appendPushTag a.usedTags)

/-- Appends an opaque data block to the data region and a reference to it in
the stream (spec section 4.5, `appendData`). -/
def Assembly.appendDataBlock (a : Assembly) (bs : List Nat) : Nat × Assembly :=
  (a.data.length, { a.append (AsmItem.PushData a.data.length) with data := a.data ++ [bs] })

/-- Appends an already-finalized child bytecode as a subroutine and pushes its
size (spec section 4.5, `embedSubroutine`). -/
def Assembly.appendSubSize (a : Assembly) (child : List Nat) : Nat × Assembly :=
  (a.subs.length, { a.append (AsmItem.PushSubSize a.subs.length) with subs := a.subs ++ [child] })

/-- Emits a reference to the eventual total program size
(spec section 4.5, `pushProgramSize`). -/
def Assembly.appendProgSize (a : Assembly) : Assembly :=
  a.append AsmItem.PushProgramSize

/-- Tag identifiers of all tag placements in a stream. -/
def placedTags (items : List AsmItem) : List Nat :=
  items.filterMap fun i =>
    match i with
    | AsmItem.Tag t => some t
    | _ => none

/-- Byte position of each placed tag in the laid-out code region. -/
def tagPositionsFrom : List AsmItem → Nat → List (Nat × Nat)
  | [], _ => []
  | i :: rest, pos =>
      (match i with
       | AsmItem.Tag t => [(t, pos)]
       | _ => []) ++ tagPositionsFrom rest (pos + itemSize i)

/-- Total byte size of the laid-out code region. -/
def codeSize (items : List AsmItem) : Nat :=
  (items.map itemSize).sum

/-- Byte offset of block number `j` inside a list of blocks laid out
contiguously. -/
def blockOffset (blocks : List (List Nat)) (j : Nat) : Nat :=
  ((blocks.take j).map List.length).sum

/-- Total byte size of a list of contiguous blocks. -/
def blocksSize (blocks : List (List Nat)) : Nat :=
  (blocks.map List.length).sum

/-- Total size of the assembled output: code region, then the embedded
subroutines, then the raw data blocks. -/
def Assembly.programSize (a : Assembly) : Nat :=
  codeSize a.items + blocksSize a.subs + blocksSize a.data

/-- Serialization of one item once the layout is known: tag references resolve
to the tag's code position, data and subroutine references to their block's
offset behind the code region, size references to the block's length. -/
def assembleItem (a : Assembly) : AsmItem → List Nat
  | AsmItem.Operation op => [opcodeByte op]
  | AsmItem.Push v => 0x7f :: beBytes 32 (v % 2 ^ 256)
  | AsmItem.PushTag t =>
      0x61 :: beBytes 2 ((mapFind (tagPositionsFrom a.items 0) t).getD 0)
  | AsmItem.Tag _ => [0x5b]
  | AsmItem.PushData j =>
      0x61 :: beBytes 2 (codeSize a.items + blocksSize a.subs + blockOffset a.data j)
  | AsmItem.PushSub j => 0x61 :: beBytes 2 (codeSize a.items + blockOffset a.subs j)
  | AsmItem.PushSubSize j => 0x61 :: beBytes 2 ((a.subs.getD j []).length)
  | AsmItem.PushProgramSize => 0x61 :: beBytes 2 a.programSize

/-- True when some minted tag has no placement in the stream. -/
def Assembly.hasDanglingTag (a : Assembly) : Bool :=
  !((List.range a.usedTags).all fun t => decide (t ∈ placedTags a.items))

/-- Modelled from the spec: finalization (spec section 4.5, `finalize`).
Fails with `DanglingReference` when any minted tag was never placed, returning
no partial byte sequence; otherwise lays out the code region followed by the
subroutine and data blocks, resolving every reference. -/
def Assembly.assemble (a : Assembly) : Except CompilerError (List Nat) :=
  if a.hasDanglingTag then Except.error CompilerError.DanglingReference
  else
    Except.ok ((a.items.map (assembleItem a)).foldr (· ++ ·) [] ++
      a.subs.foldr (· ++ ·) [] ++ a.data.foldr (· ++ ·) [])

/-- Modelled from the spec: the optimization pass belongs to the opaque
low-level engine declared out of scope (spec section 1), so it is modelled as
the identity transformation on the stream. -/
def Assembly.optimise (a : Assembly) (_enable : Bool) : Assembly :=
  a

/-- The shared compilation context of `src/libsolidity/CompilerContext.h`,
field for field.  `m_stateVariablesSize` is initialized to 0 in the header;
`m_localVariablesSize` carries no initializer there (reading it before the
first write is undefined behaviour in the C++ program), and is modelled with
the benign initial value 0. -/
structure CompilerContext where
  m_asm : Assembly := {}
  m_magicGlobals : List Nat := []
  m_compiledContracts : List (Nat × List Nat) := []
  m_stateVariablesSize : Nat := 0
  m_stateVariables : List (Nat × Nat) := []
  m_localVariables : List (Nat × Nat) := []
  m_localVariablesSize : Nat := 0
  m_functionEntryLabels : List (Nat × Nat) := []
  deriving DecidableEq

/-- Modelled from the spec: `CompilerContext::addMagicGlobal` (body in the
absent CompilerContext.cpp); idempotent insertion into the identity set
(spec section 4.4). -/
def CompilerContext.addMagicGlobal (c : CompilerContext) (d : Nat) : CompilerContext :=
  if c.m_magicGlobals.contains d then c
  else { c with m_magicGlobals := c.m_magicGlobals ++ [d] }

/-- Modelled from the spec: `CompilerContext::addStateVariable` (body in the
absent CompilerContext.cpp).  Spec section 4.2: the assigned slot is the
running total `m_stateVariablesSize`, which then grows by the declaration's
size.  Per spec section 9 the source has no duplicate guard, so a
re-registration overwrites through `operator[]`. -/
def CompilerContext.addStateVariable (c : CompilerContext) (d size : Nat) : CompilerContext :=
  { c with
    m_stateVariables := mapSet c.m_stateVariables d c.m_stateVariablesSize,
    m_stateVariablesSize := c.m_stateVariablesSize + size }

/-- `CompilerContext::startNewFunction`, inline in the header: clears the
local-variable map and zeroes the deposit — and touches nothing else; in
particular `m_localVariablesSize` is not reset. -/
def CompilerContext.startNewFunction (c : CompilerContext) : CompilerContext :=
  { c with m_localVariables := [], m_asm := c.m_asm.setDeposit 0 }

/-- Modelled from the spec: `CompilerContext::addVariable` (body in the absent
CompilerContext.cpp).  Spec section 4.1: the slot is recorded at the running
sum of local sizes — the header's field `m_localVariablesSize` — which then
grows by the declaration's size; no duplicate guard (spec section 9). -/
def CompilerContext.addVariable (c : CompilerContext) (d size : Nat) : CompilerContext :=
  { c with
    m_localVariables := mapSet c.m_localVariables d c.m_localVariablesSize,
    m_localVariablesSize := c.m_localVariablesSize + size }

/-- Emits `n` default-value pushes (helper for variable initialization). -/
def pushZeroSlots : Nat → CompilerContext → CompilerContext
  | 0, c => c
  | n + 1, c => pushZeroSlots n { c with m_asm := c.m_asm.appendPush 0 }

/-- Modelled from the spec: `CompilerContext::addAndInitializeVariable` (body
in the absent CompilerContext.cpp).  Spec section 4.1: registers the local and
then emits one default-value push per stack slot, keeping the physical stack
consistent with the bookkeeping. -/
def CompilerContext.addAndInitializeVariable (c : CompilerContext) (d size : Nat) : CompilerContext :=
  pushZeroSlots size (c.addVariable d size)

/-- Modelled from the spec: `CompilerContext::addFunction` (body in the absent
CompilerContext.cpp).  Mints a fresh unplaced tag for the function's entry on
first registration and associates it; the association, once made, is stable
for the lifetime of the context (spec sections 3 and 4.3), so a repeated
registration leaves it unchanged. -/
def CompilerContext.addFunction (c : CompilerContext) (d : Nat) : CompilerContext :=
  if (mapFind c.m_functionEntryLabels d).isSome then c
  else
    { c with
      m_asm := (c.m_asm.newTag).2,
      m_functionEntryLabels := mapSet c.m_functionEntryLabels d (c.m_asm.newTag).1 }

/-- `CompilerContext::setCompiledContracts`, inline in the header: installs
the read-only table of already-compiled contracts. -/
def CompilerContext.setCompiledContracts (c : CompilerContext)
    (tbl : List (Nat × List Nat)) : CompilerContext :=
  { c with m_compiledContracts := tbl }

/-- Modelled from the spec: `CompilerContext::getCompiledContract` (body in
the absent CompilerContext.cpp); a `const` lookup that fails with `NotFound`
when the contract identity is not in the installed table (spec section 4.6). -/
def CompilerContext.getCompiledContract (c : CompilerContext) (k : Nat) :
    Except CompilerError (List Nat) :=
  match mapFind c.m_compiledContracts k with
  | some bs => Except.ok bs
  | none => Except.error CompilerError.NotFound

/-- `CompilerContext::adjustStackOffset`, inline in the header. -/
def CompilerContext.adjustStackOffset (c : CompilerContext) (adj : Int) : CompilerContext :=
  { c with m_asm := c.m_asm.adjustDeposit adj }

/-- `CompilerContext::isMagicGlobal`, inline in the header. -/
def CompilerContext.isMagicGlobal (c : CompilerContext) (d : Nat) : Bool :=
  c.m_magicGlobals.contains d

/-- `CompilerContext::isFunctionDefinition`, inline in the header. -/
def CompilerContext.isFunctionDefinition (c : CompilerContext) (d : Nat) : Bool :=
  (mapFind c.m_functionEntryLabels d).isSome

/-- Modelled from the spec: `CompilerContext::isLocalVariable` (declared
`const` in the header, body in the absent CompilerContext.cpp). -/
def CompilerContext.isLocalVariable (c : CompilerContext) (d : Nat) : Bool :=
  (mapFind c.m_localVariables d).isSome

/-- `CompilerContext::isStateVariable`, inline in the header. -/
def CompilerContext.isStateVariable (c : CompilerContext) (d : Nat) : Bool :=
  (mapFind c.m_stateVariables d).isSome

/-- Modelled from the spec: `CompilerContext::getFunctionEntryLabel` (body in
the absent CompilerContext.cpp).  The header declares it `const`, so it cannot
mint or associate anything (the spec's lazy `labelFor` is not implementable
against the header): it is a pure lookup, failing with `NotFound` for a
function that was never registered through `addFunction`. -/
def CompilerContext.getFunctionEntryLabel (c : CompilerContext) (d : Nat) :
    Except CompilerError Nat :=
  match mapFind c.m_functionEntryLabels d with
  | some t => Except.ok t
  | none => Except.error CompilerError.NotFound

/-- Modelled from the spec: `CompilerContext::getBaseStackOffsetOfVariable`
(body in the absent CompilerContext.cpp); a `const` lookup of the recorded
base offset, failing with `NotFound` for a declaration not tracked in the
current frame (spec section 4.1). -/
def CompilerContext.getBaseStackOffsetOfVariable (c : CompilerContext) (d : Nat) :
    Except CompilerError Nat :=
  match mapFind c.m_localVariables d with
  | some off => Except.ok off
  | none => Except.error CompilerError.NotFound

/-- Modelled from the spec: `CompilerContext::baseToCurrentStackOffset` (body
in the absent CompilerContext.cpp).  The header's doc comment fixes the
meaning — the distance of the variable from the current top of the stack, the
top slot being at distance 0 — which, with the deposit counting every slot of
the frame, is `deposit - baseOffset - 1`.  (Spec section 4.1 writes
`deposit - baseOffset`, but that contradicts the spec's own section 8
scenarios, which this arithmetic reproduces.)  The C++ computes in `unsigned`;
the result is modelled exactly, as an integer. -/
def CompilerContext.baseToCurrentStackOffset (c : CompilerContext) (baseOffset : Nat) : Int :=
  c.m_asm.deposit - (baseOffset : Int) - 1

/-- Modelled from the spec: `CompilerContext::getStorageLocationOfVariable`
(body in the absent CompilerContext.cpp); a `const` lookup of the assigned
storage slot, failing with `NotFound` for an unregistered declaration
(spec section 4.2). -/
def CompilerContext.getStorageLocationOfVariable (c : CompilerContext) (d : Nat) :
    Except CompilerError Nat :=
  match mapFind c.m_stateVariables d with
  | some slot => Except.ok slot
  | none => Except.error CompilerError.NotFound

/-- `CompilerContext::appendConditionalJump`, inline in the header:
`m_asm.appendJumpI().tag()`. -/
def CompilerContext.appendConditionalJump (c : CompilerContext) : Nat × CompilerContext :=
  ((c.m_asm.appendJumpI).1, { c with m_asm := (c.m_asm.appendJumpI).2 })

/-- `CompilerContext::appendConditionalJumpTo`, inline in the header. -/
def CompilerContext.appendConditionalJumpTo (c : CompilerContext) (t : Nat) : CompilerContext :=
  { c with m_asm := c.m_asm.appendJumpITo t }

/-- `CompilerContext::appendJumpToNew`, inline in the header:
`m_asm.appendJump().tag()`. -/
def CompilerContext.appendJumpToNew (c : CompilerContext) : Nat × CompilerContext :=
  ((c.m_asm.appendJumpNew).1, { c with m_asm := (c.m_asm.appendJumpNew).2 })

/-- `CompilerContext::appendJump`, inline in the header: emits a bare `JUMP`
to a target already on the stack through the stream-insertion operator. -/
def CompilerContext.appendJump (c : CompilerContext) : CompilerContext :=
  { c with m_asm := c.m_asm.appendInstr Instruction.JUMP }

/-- `CompilerContext::appendJumpTo`, inline in the header. -/
def CompilerContext.appendJumpTo (c : CompilerContext) (t : Nat) : CompilerContext :=
  { c with m_asm := c.m_asm.appendJumpToTag t }

/-- `CompilerContext::pushNewTag`, inline in the header:
`m_asm.append(m_asm.newPushTag()).tag()`. -/
def CompilerContext.pushNewTag (c : CompilerContext) : Nat × CompilerContext :=
  ((c.m_asm.newPushTag).1, { c with m_asm := (c.m_asm.newPushTag).2 })

/-- `CompilerContext::newTag`, inline in the header: a fresh tag without
emitting anything. -/
def CompilerContext.newTag (c : CompilerContext) : Nat × CompilerContext :=
  ((c.m_asm.newTag).1, { c with m_asm := (c.m_asm.newTag).2 })

/-- `CompilerContext::addSubroutine`, inline in the header:
`m_asm.appendSubSize(assembly)` on an already-finalized child bytecode. -/
def CompilerContext.addSubroutine (c : CompilerContext) (child : List Nat) :
    Nat × CompilerContext :=
  ((c.m_asm.appendSubSize child).1, { c with m_asm := (c.m_asm.appendSubSize child).2 })

/-- `CompilerContext::appendProgramSize`, inline in the header. -/
def CompilerContext.appendProgramSize (c : CompilerContext) : CompilerContext :=
  { c with m_asm := c.m_asm.appendProgSize }

/-- `CompilerContext::appendData`, inline in the header. -/
def CompilerContext.appendData (c : CompilerContext) (bs : List Nat) : Nat × CompilerContext :=
  ((c.m_asm.appendDataBlock bs).1, { c with m_asm := (c.m_asm.appendDataBlock bs).2 })

/-- The stream-insertion operator for assembly items, inline in the header
(this is also how a tag gets placed: appending its `Tag`-kind item). -/
def CompilerContext.appendItem (c : CompilerContext) (i : AsmItem) : CompilerContext :=
  { c with m_asm := c.m_asm.append i }

/-- The stream-insertion operator for instructions, inline in the header. -/
def CompilerContext.appendInstruction (c : CompilerContext) (op : Instruction) : CompilerContext :=
  { c with m_asm := c.m_asm.appendInstr op }

/-- The stream-insertion operator for `u256` literals, inline in the header. -/
def CompilerContext.appendPushValue (c : CompilerContext) (v : Nat) : CompilerContext :=
  { c with m_asm := c.m_asm.appendPush v }

/-- `CompilerContext::getAssembledBytecode`, inline in the header:
`m_asm.optimise(_optimize).assemble()`. -/
def CompilerContext.getAssembledBytecode (c : CompilerContext) (optimize : Bool) :
    Except CompilerError (List Nat) :=
  (c.m_asm.optimise optimize).assemble

/-- End-to-end scenario of the spec: a fresh context, a new frame, two
added-and-initialized locals of size 1 (base offsets 0 and 1, deposit 2),
then one more pushed value (deposit 3). -/
def scenarioTwoLocals : CompilerContext :=
  ((((({} : CompilerContext).startNewFunction).addAndInitializeVariable 1 1).addAndInitializeVariable
    2 1).appendPushValue 0)

/-- Failing input for the frame-reset bookkeeping: frame one adds a local of
size 1, then the frame is reset and a second frame adds its first local. -/
def scenarioSecondFrame : CompilerContext :=
  (((({} : CompilerContext).startNewFunction).addVariable 1 1).startNewFunction).addVariable 2 1

/-- Running totals: `prefixSums acc sizes` lists, for each element of `sizes`
in order, the sum of `acc` and all earlier elements — the spec's
"running total of the sizes of all previously registered" values. -/
def prefixSums : Nat → List Nat → List Nat
  | _, [] => []
  | acc, s :: rest => acc :: prefixSums (acc + s) rest

/-- The storage slots handed out by a sequence of `addStateVariable` calls
(each paired with its declaration identity and size), in registration order:
each slot is read off the context just before its registration, exactly as
`addStateVariable` assigns it. -/
def assignedStateSlots : CompilerContext → List (Nat × Nat) → List Nat
  | _, [] => []
  | c, (d, s) :: rest => c.m_stateVariablesSize :: assignedStateSlots (c.addStateVariable d s) rest

/-- A context holding a pushed tag on the stack (deposit 1), about to emit a
bare `JUMP` to it. -/
def scenarioPushedTag : CompilerContext :=
  ((({} : CompilerContext).pushNewTag).2)

theorem mapFind_mapSet_self {α : Type} (m : List (Nat × α)) (k : Nat) (v : α) :
    mapFind (mapSet m k v) k = some v := by
  induction m with
  | nil => simp [mapSet, mapFind]
  | cons p rest ih =>
    obtain ⟨pk, pv⟩ := p
    by_cases h : pk = k
    · simp [mapSet, mapFind, h]
    · simp [mapSet, mapFind, h, ih]

theorem assignedStateSlots_eq_prefixSums (vars : List (Nat × Nat)) :
    ∀ c : CompilerContext,
      assignedStateSlots c vars = prefixSums c.m_stateVariablesSize (vars.map Prod.snd) := by
  induction vars with
  | nil => intro c; rfl
  | cons p rest ih =>
    intro c
    obtain ⟨d, s⟩ := p
    simp only [assignedStateSlots, List.map_cons, prefixSums, List.cons.injEq, true_and]
    exact ih (c.addStateVariable d s)

theorem mem_prefixSums_le (l : List Nat) :
    ∀ acc x, x ∈ prefixSums acc l → acc ≤ x := by
  induction l with
  | nil => intro acc x hx; simp [prefixSums] at hx
  | cons s rest ih =>
    intro acc x hx
    simp only [prefixSums, List.mem_cons] at hx
    rcases hx with h | h
    · omega
    · have := ih (acc + s) x h
      omega

theorem prefixSums_pairwise (l : List Nat) (hl : ∀ s ∈ l, 0 < s) :
    ∀ acc, List.Pairwise (· < ·) (prefixSums acc l) := by
  induction l with
  | nil => intro acc; simp [prefixSums]
  | cons s rest ih =>
    intro acc
    simp only [prefixSums, List.pairwise_cons]
    constructor
    · intro x hx
      have hs : 0 < s := hl s (by simp)
      have := mem_prefixSums_le rest (acc + s) x hx
      omega
    · exact ih (fun t ht => hl t (by simp [ht])) (acc + s)

/-- C1 — counterexample.  In the spec's own end-to-end scenario the variable
with identity 1 is a tracked local at base offset 0, the deposit is 3, and
`baseToCurrentStackOffset` returns 2 — which is not `deposit - baseOffset`
(that would be 3).  The claim's stated formula is refuted at this concrete
input, while the claim's concrete offsets 2 and 1 do hold. -/
theorem baseToCurrentStackOffset_not_deposit_minus_base :
    scenarioTwoLocals.getBaseStackOffsetOfVariable 1 = Except.ok 0 ∧
    scenarioTwoLocals.m_asm.deposit = 3 ∧
    scenarioTwoLocals.baseToCurrentStackOffset 0 = 2 ∧
    ¬(scenarioTwoLocals.baseToCurrentStackOffset 0 =
        scenarioTwoLocals.m_asm.deposit - (0 : Int)) := by
  refine ⟨rfl, rfl, rfl, ?_⟩
  decide

/-- C1 (amended): for every tracked local, `baseToCurrentStackOffset` applied
to its base offset returns `deposit - baseOffset - 1`, the distance of the
variable from the current top of the stack; each push moves every tracked
local one slot further from the top; and in the end-to-end scenario — two
locals of size 1 at base offsets 0 and 1, then one more pushed value — the
current offsets are 2 and 1 respectively. -/
theorem baseToCurrentStackOffset_spec :
    (∀ (c : CompilerContext) (b : Nat),
        c.baseToCurrentStackOffset b = c.m_asm.deposit - (b : Int) - 1) ∧
    (∀ (c : CompilerContext) (b v : Nat),
        (c.appendPushValue v).baseToCurrentStackOffset b = c.baseToCurrentStackOffset b + 1) ∧
    scenarioTwoLocals.getBaseStackOffsetOfVariable 1 = Except.ok 0 ∧
    scenarioTwoLocals.getBaseStackOffsetOfVariable 2 = Except.ok 1 ∧
    scenarioTwoLocals.baseToCurrentStackOffset 0 = 2 ∧
    scenarioTwoLocals.baseToCurrentStackOffset 1 = 1 := by
  refine ⟨fun c b => rfl, fun c b v => ?_, rfl, rfl, rfl, rfl⟩
  simp only [CompilerContext.baseToCurrentStackOffset, CompilerContext.appendPushValue,
    Assembly.appendPush, Assembly.append, itemDeposit]
  omega

/-- C2 — evaluation at the failing input.  A local of size 1 is added in a
first frame; after `startNewFunction` the first local added in the new frame
receives base offset 1, not 0, because `startNewFunction` does not reset the
running sum `m_localVariablesSize` (the header's own comment calls that field
the "Sum of stack sizes of local variables", which after the clear is 0). -/
theorem secondFrame_first_local_offset :
    scenarioSecondFrame.getBaseStackOffsetOfVariable 2 = Except.ok 1 ∧
    scenarioSecondFrame.m_localVariables = [(2, 1)] ∧
    scenarioSecondFrame.m_localVariablesSize = 2 := by
  exact ⟨rfl, rfl, rfl⟩

/-- C3: `startNewFunction` empties the local-variable records and zeroes the
deposit, so `getBaseStackOffsetOfVariable` immediately after the reset fails
with `NotFound` for every declaration — in particular for every variable of
the prior frame. -/
theorem startNewFunction_clears_frame :
    ∀ (c : CompilerContext) (d : Nat),
      (c.startNewFunction).m_localVariables = [] ∧
      (c.startNewFunction).m_asm.deposit = 0 ∧
      (c.startNewFunction).getBaseStackOffsetOfVariable d =
        Except.error CompilerError.NotFound := by
  intro c d
  exact ⟨rfl, rfl, rfl⟩

/-- C4: starting from a fresh context, the storage slots assigned by any
sequence of `addStateVariable` registrations are the running totals of the
previously registered sizes; when every size is positive they are strictly
increasing (hence never reused); and the sizes `[1, 32, 1]` receive the slots
`[0, 1, 33]` in registration order. -/
theorem addStateVariable_slots (vars : List (Nat × Nat))
    (hpos : ∀ p ∈ vars, 0 < p.2) :
    assignedStateSlots ({} : CompilerContext) vars = prefixSums 0 (vars.map Prod.snd) ∧
    List.Pairwise (· < ·) (assignedStateSlots ({} : CompilerContext) vars) ∧
    assignedStateSlots ({} : CompilerContext) [(10, 1), (11, 32), (12, 1)] = [0, 1, 33] := by
  refine ⟨assignedStateSlots_eq_prefixSums vars ({} : CompilerContext), ?_, rfl⟩
  rw [assignedStateSlots_eq_prefixSums vars ({} : CompilerContext)]
  exact prefixSums_pairwise (vars.map Prod.snd)
    (by
      intro s hs
      rcases List.mem_map.mp hs with ⟨p, hp, rfl⟩
      exact hpos p hp) _

/-- Witness for C4 at the spec's concrete sizes `[1, 32, 1]`. -/
theorem addStateVariable_slots_witness :
    assignedStateSlots ({} : CompilerContext) [(10, 1), (11, 32), (12, 1)] = [0, 1, 33] ∧
    List.Pairwise (· < ·)
      (assignedStateSlots ({} : CompilerContext) [(10, 1), (11, 32), (12, 1)]) := by
  have h := addStateVariable_slots [(10, 1), (11, 32), (12, 1)] (by decide)
  exact ⟨h.2.2, h.2.1⟩

/-- C10: `startNewFunction` clears the local-variable map and zeroes the
deposit, and leaves every other component of the context unchanged: the
state-variable map and its running total, the function entry labels, the
magic-global set, the compiled-contract table, the accumulated instruction
stream with its data, subroutines and tag counter — and, notably, the running
sum of local-variable sizes `m_localVariablesSize`. -/
theorem startNewFunction_frame_effect :
    ∀ c : CompilerContext,
      (c.startNewFunction).m_localVariables = [] ∧
      (c.startNewFunction).m_asm.deposit = 0 ∧
      (c.startNewFunction).m_stateVariables = c.m_stateVariables ∧
      (c.startNewFunction).m_stateVariablesSize = c.m_stateVariablesSize ∧
      (c.startNewFunction).m_functionEntryLabels = c.m_functionEntryLabels ∧
      (c.startNewFunction).m_magicGlobals = c.m_magicGlobals ∧
      (c.startNewFunction).m_compiledContracts = c.m_compiledContracts ∧
      (c.startNewFunction).m_asm.items = c.m_asm.items ∧
      (c.startNewFunction).m_asm.data = c.m_asm.data ∧
      (c.startNewFunction).m_asm.subs = c.m_asm.subs ∧
      (c.startNewFunction).m_asm.usedTags = c.m_asm.usedTags ∧
      (c.startNewFunction).m_localVariablesSize = c.m_localVariablesSize := by
  intro c
  exact ⟨rfl, rfl, rfl, rfl, rfl, rfl, rfl, rfl, rfl, rfl, rfl, rfl⟩

theorem mem_placedTags (items : List AsmItem) (t : Nat) :
    t ∈ placedTags items ↔ AsmItem.Tag t ∈ items := by
  unfold placedTags
  rw [List.mem_filterMap]
  constructor
  · rintro ⟨a, ha, hfa⟩
    cases a <;> simp at hfa
    subst hfa
    exact ha
  · intro hmem
    exact ⟨AsmItem.Tag t, hmem, rfl⟩

theorem assemble_dangling (a : Assembly) (t : Nat) (ht : t < a.usedTags)
    (hnp : AsmItem.Tag t ∉ a.items) :
    a.assemble = Except.error CompilerError.DanglingReference := by
  have hd : a.hasDanglingTag = true := by
    unfold Assembly.hasDanglingTag
    rw [Bool.not_eq_true']
    by_contra hall
    rw [Bool.not_eq_false, List.all_eq_true] at hall
    have := hall t (List.mem_range.mpr ht)
    rw [decide_eq_true_iff] at this
    exact hnp ((mem_placedTags a.items t).mp this)
  simp [Assembly.assemble, hd]

/-- C5 — counterexample.  Requesting the entry label of a function the context
has never seen does not mint a tag: it fails with `NotFound` (the lookup is
`const` in the header and cannot associate anything), refuting the claim that
the request itself lazily mints and associates a fresh tag. -/
theorem getFunctionEntryLabel_unregistered :
    ({} : CompilerContext).getFunctionEntryLabel 7 =
      Except.error CompilerError.NotFound := by
  exact rfl

/-- C5 (amended): minting happens at registration, not at request.  For a
function not yet registered, `getFunctionEntryLabel` fails with `NotFound`;
`addFunction` mints exactly one fresh tag and associates it; thereafter every
request returns that identical tag (the request is a pure lookup and can
never create a second tag), and re-registering the function leaves the
context — association and tag counter — entirely unchanged. -/
theorem functionEntryLabel_stable (c : CompilerContext) (f : Nat)
    (h : c.isFunctionDefinition f = false) :
    c.getFunctionEntryLabel f = Except.error CompilerError.NotFound ∧
    (c.addFunction f).getFunctionEntryLabel f = Except.ok c.m_asm.usedTags ∧
    (c.addFunction f).m_asm.usedTags = c.m_asm.usedTags + 1 ∧
    (c.addFunction f).addFunction f = c.addFunction f := by
  have hn : mapFind c.m_functionEntryLabels f = none := by
    unfold CompilerContext.isFunctionDefinition at h
    cases hm : mapFind c.m_functionEntryLabels f with
    | none => rfl
    | some t => rw [hm] at h; simp at h
  refine ⟨?_, ?_, ?_, ?_⟩
  · simp [CompilerContext.getFunctionEntryLabel, hn]
  · simp [CompilerContext.addFunction, hn, CompilerContext.getFunctionEntryLabel,
      mapFind_mapSet_self, Assembly.newTag]
  · simp [CompilerContext.addFunction, hn, Assembly.newTag]
  · simp [CompilerContext.addFunction, hn, mapFind_mapSet_self]

/-- Witness for C5 (amended) at a fresh context and function identity 7. -/
theorem functionEntryLabel_stable_witness :
    ({} : CompilerContext).getFunctionEntryLabel 7 = Except.error CompilerError.NotFound ∧
    (({} : CompilerContext).addFunction 7).getFunctionEntryLabel 7 = Except.ok 0 ∧
    (({} : CompilerContext).addFunction 7).m_asm.usedTags = 1 ∧
    (({} : CompilerContext).addFunction 7).addFunction 7 =
      ({} : CompilerContext).addFunction 7 :=
  functionEntryLabel_stable ({} : CompilerContext) 7 (by decide)

/-- C6: a conditional jump to a fresh target mints the next tag; if that tag
is never placed, finalization fails with `DanglingReference` (and, the result
being an error, no partial byte sequence is returned), with or without the
optimization pass. -/
theorem dangling_tag_fails_finalize (c : CompilerContext) (b : Bool)
    (h : AsmItem.Tag c.m_asm.usedTags ∉ c.m_asm.items) :
    (c.appendConditionalJump).1 = c.m_asm.usedTags ∧
    ((c.appendConditionalJump).2).getAssembledBytecode b =
      Except.error CompilerError.DanglingReference := by
  refine ⟨rfl, ?_⟩
  show ((c.m_asm.appendJumpI).2).assemble = _
  apply assemble_dangling _ c.m_asm.usedTags
  · simp [Assembly.appendJumpI, Assembly.appendPushTag, Assembly.appendInstr,
      Assembly.append, Assembly.newTag]
  · simp only [Assembly.appendJumpI, Assembly.appendPushTag, Assembly.appendInstr,
      Assembly.append, Assembly.newTag, List.mem_append, List.mem_singleton]
    simp [h]

/-- Witness for C6 at a fresh context: the minted tag is 0 and finalization
fails. -/
theorem dangling_tag_fails_finalize_witness :
    ((({} : CompilerContext).appendConditionalJump).1 = 0 ∧
      ((({} : CompilerContext).appendConditionalJump).2).getAssembledBytecode false =
        Except.error CompilerError.DanglingReference) :=
  dangling_tag_fails_finalize ({} : CompilerContext) false (by decide)

/-- C7 — counterexample.  With a pushed tag on the stack (deposit 1), the
bare-`JUMP` emission `appendJump` lowers the deposit to 0: it consumes the
target from the stack, refuting the claim that it consumes no stack value as
reflected in the deposit. -/
theorem appendJump_consumes_target :
    scenarioPushedTag.m_asm.deposit = 1 ∧
    (scenarioPushedTag.appendJump).m_asm.deposit = 0 ∧
    ¬((scenarioPushedTag.appendJump).m_asm.deposit = scenarioPushedTag.m_asm.deposit) := by
  refine ⟨rfl, rfl, ?_⟩
  decide

/-- C7 (amended): both conditional-branch emissions have net deposit effect
minus one (the condition is consumed); `appendJumpTo` and `appendJumpToNew`
(which push the target themselves before the `JUMP` consumes it) have net
deposit effect zero; and `appendJump`, whose target is already on the stack,
has net deposit effect minus one — it pops the target. -/
theorem branch_deposit_effects :
    ∀ (c : CompilerContext) (t : Nat),
      ((c.appendConditionalJump).2).m_asm.deposit = c.m_asm.deposit - 1 ∧
      (c.appendConditionalJumpTo t).m_asm.deposit = c.m_asm.deposit - 1 ∧
      (c.appendJumpTo t).m_asm.deposit = c.m_asm.deposit ∧
      ((c.appendJumpToNew).2).m_asm.deposit = c.m_asm.deposit ∧
      (c.appendJump).m_asm.deposit = c.m_asm.deposit - 1 := by
  intro c t
  refine ⟨?_, ?_, ?_, ?_, ?_⟩ <;>
    simp [CompilerContext.appendConditionalJump, CompilerContext.appendConditionalJumpTo,
      CompilerContext.appendJumpTo, CompilerContext.appendJumpToNew, CompilerContext.appendJump,
      Assembly.appendJumpI, Assembly.appendJumpITo, Assembly.appendJumpNew,
      Assembly.appendJumpToTag, Assembly.appendPushTag, Assembly.appendInstr,
      Assembly.append, Assembly.newTag, itemDeposit, instructionInfo] <;>
    omega

/-- C8 — counterexample.  Registering declaration 5 twice as a state variable
does not fail: the second registration returns normally and overwrites the
recorded slot (0 becomes 1); likewise a local registered twice has its base
offset overwritten (0 becomes 1). -/
theorem duplicate_registration_no_failure :
    ((({} : CompilerContext).addStateVariable 5 1).addStateVariable
        5 1).getStorageLocationOfVariable 5 = Except.ok 1 ∧
    (({} : CompilerContext).addStateVariable 5 1).getStorageLocationOfVariable 5 =
      Except.ok 0 ∧
    ((({} : CompilerContext).addVariable 6 1).addVariable 6 1).getBaseStackOffsetOfVariable 6 =
      Except.ok 1 ∧
    (({} : CompilerContext).addVariable 6 1).getBaseStackOffsetOfVariable 6 =
      Except.ok 0 := by
  exact ⟨rfl, rfl, rfl, rfl⟩

/-- C8 (amended): there is no duplicate guard.  Re-registering a declaration
as a state variable or as a local succeeds and silently overwrites the
recorded slot or base offset with the current running total (which the first
registration had already grown by its size), and grows the running total
again. -/
theorem duplicate_registration_overwrites :
    ∀ (c : CompilerContext) (d s1 s2 : Nat),
      ((c.addStateVariable d s1).addStateVariable d s2).getStorageLocationOfVariable d =
        Except.ok (c.m_stateVariablesSize + s1) ∧
      ((c.addStateVariable d s1).addStateVariable d s2).m_stateVariablesSize =
        c.m_stateVariablesSize + s1 + s2 ∧
      ((c.addVariable d s1).addVariable d s2).getBaseStackOffsetOfVariable d =
        Except.ok (c.m_localVariablesSize + s1) ∧
      ((c.addVariable d s1).addVariable d s2).m_localVariablesSize =
        c.m_localVariablesSize + s1 + s2 := by
  intro c d s1 s2
  refine ⟨?_, rfl, ?_, rfl⟩
  · simp [CompilerContext.addStateVariable, CompilerContext.getStorageLocationOfVariable,
      mapFind_mapSet_self]
  · simp [CompilerContext.addVariable, CompilerContext.getBaseStackOffsetOfVariable,
      mapFind_mapSet_self]

/-- C9: looking up the storage slot of a declaration never registered as a
state variable fails with `NotFound`, and looking up the bytecode of a
contract identity absent from the installed compiled-contract table fails with
`NotFound`; both lookups are pure (`const` in the header) and return no
result on failure. -/
theorem unregistered_lookups_fail (c : CompilerContext) (d k : Nat)
    (hd : c.isStateVariable d = false)
    (hk : mapFind c.m_compiledContracts k = none) :
    c.getStorageLocationOfVariable d = Except.error CompilerError.NotFound ∧
    c.getCompiledContract k = Except.error CompilerError.NotFound := by
  have hn : mapFind c.m_stateVariables d = none := by
    unfold CompilerContext.isStateVariable at hd
    cases hm : mapFind c.m_stateVariables d with
    | none => rfl
    | some t => rw [hm] at hd; simp at hd
  exact ⟨by simp [CompilerContext.getStorageLocationOfVariable, hn],
    by simp [CompilerContext.getCompiledContract, hk]⟩

/-- Witness for C9: a context with one installed contract and one registered
state variable still fails both lookups for the other identities. -/
theorem unregistered_lookups_fail_witness :
    ((({} : CompilerContext).setCompiledContracts [(1, [0, 1])]).addStateVariable
        5 1).getStorageLocationOfVariable 3 = Except.error CompilerError.NotFound ∧
    ((({} : CompilerContext).setCompiledContracts [(1, [0, 1])]).addStateVariable
        5 1).getCompiledContract 2 = Except.error CompilerError.NotFound :=
  unregistered_lookups_fail
    ((({} : CompilerContext).setCompiledContracts [(1, [0, 1])]).addStateVariable 5 1)
    3 2 (by decide) (by decide)

end Solidity
